import Mathlib

/-!
Verification of the CommonCrawl article-loading pipeline
(`src/ccloaders/news.py`, with the single-record variant from
`src/ccloaders/main.py` where a claim cites it).

The Python code is shallowly embedded: each method becomes a pure Lean
function with the loader's mutable state (the extracted/discarded/errored
counters and the sequence of `article_callback` invocations) threaded
explicitly.  External collaborators are modelled at their interfaces:

* the HTTP transport is an `Archive` value mapping listing months and
  segment paths to optional responses (`none` models a non-success HTTP
  status);
* the WARC container parser yields `RawRecord` values carrying the headers
  the code reads plus deterministic outcomes for the three external,
  record-determined operations the pipeline performs on a record:
  UTF-8 payload decoding (`decodeResult`, `none` models
  `UnicodeDecodeError`), language detection (`langResult`, `none` models
  `langdetect.LangDetectException`) and newspaper article parsing
  (`parseOk`; `Article.is_parsed` is true exactly when
  `download` + `parse` succeeded);
* `newspaper.utils.get_available_languages()` is an arbitrary parameter
  `supported : List String`.

Character classes of the Python regexes (`\w`, `\d`, `\s`) and
`str.lower` are modelled at ASCII, which is exact for every token the
code compares against (MIME types, charsets, timestamps).
-/

namespace CC

/-- Calendar timestamp at second granularity, standing for a Python
`datetime.datetime` (which the code only ever compares, formats with
`%Y%m%d%H%M%S`, and feeds to `dateutil.rrule`). -/
structure DateTime where
  year : Nat
  month : Nat
  day : Nat
  hour : Nat
  minute : Nat
  second : Nat
deriving DecidableEq, Repr

/-- Strict lexicographic comparison of timestamps, matching Python
`datetime` comparison field by field. -/
def dtLt (a b : DateTime) : Bool :=
  if a.year ≠ b.year then decide (a.year < b.year)
  else if a.month ≠ b.month then decide (a.month < b.month)
  else if a.day ≠ b.day then decide (a.day < b.day)
  else if a.hour ≠ b.hour then decide (a.hour < b.hour)
  else if a.minute ≠ b.minute then decide (a.minute < b.minute)
  else decide (a.second < b.second)

/-- Non-strict timestamp comparison. -/
def dtLe (a b : DateTime) : Bool := !dtLt b a

/-- Length of a month in the proleptic Gregorian calendar, with Python
`datetime`'s leap-year rule. -/
def daysInMonth (y m : Nat) : Nat :=
  if m = 2 then
    if y % 4 = 0 && (y % 100 ≠ 0 || y % 400 = 0) then 29 else 28
  else if m = 4 || m = 6 || m = 9 || m = 11 then 30
  else 31

/-- Embeds `dateutil.rrule.rrule(MONTHLY, dtstart, until=untl)` as used at
`src/ccloaders/news.py:260`: occurrences keep `dtstart`'s day-of-month and
time, advance month by month, skip months in which that day does not
exist, and stop at the `until` bound `untl` (inclusive). -/
def rruleMonthly (dtstart untl : DateTime) : List DateTime :=
  let si := dtstart.year * 12 + (dtstart.month - 1)
  let ui := untl.year * 12 + (untl.month - 1)
  (List.range (ui + 1 - si)).filterMap fun k =>
    let idx := si + k
    let y := idx / 12
    let m := idx % 12 + 1
    if dtstart.day ≤ daysInMonth y m then
      let occ : DateTime := { dtstart with year := y, month := m }
      if dtLe occ untl then some occ else none
    else none

/-- ASCII case folding of one character, the fragment of Python
`str.lower` exercised by the code (charsets and header names). -/
def asciiLower (c : Char) : Char :=
  if 'A' ≤ c && c ≤ 'Z' then Char.ofNat (c.toNat + 32) else c

/-- ASCII case folding of a string. -/
def lowerStr (s : String) : String := ⟨s.data.map asciiLower⟩

/-- Embeds warcio's `StatusAndHeaders.get_header`: first header whose name
matches case-insensitively, `none` when absent. -/
def get_header (headers : List (String × String)) (name : String) : Option String :=
  (headers.find? fun kv => lowerStr kv.1 == lowerStr name).map fun kv => kv.2

/-- Glob matching of a name against a pattern, embedding Python
`fnmatch.fnmatch` on POSIX for patterns without bracket expressions:
case-sensitive, anchored to the full string, with `*` matching any run of
characters and `?` exactly one. -/
def globMatch : List Char → List Char → Bool
  | [], n => n.isEmpty
  | '*' :: ps, n => n.tails.any fun suf => globMatch ps suf
  | '?' :: ps, n =>
    match n with
    | [] => false
    | _ :: ns => globMatch ps ns
  | p :: ps, n =>
    match n with
    | [] => false
    | c :: ns => p == c && globMatch ps ns

/-- Embeds `fnmatch.fnmatch(name, pattern)` (argument order as in Python). -/
def fnmatch (name pattern : String) : Bool := globMatch pattern.data name.data

/-- Characters matched by the regex class `[\w\/]` (ASCII fragment). -/
def isMimeChar (c : Char) : Bool := c.isAlphanum || c == '_' || c == '/'

/-- Characters matched by the Python regex class `\s`. -/
def isPySpace (c : Char) : Bool :=
  c == ' ' || c == '\t' || c == '\n' || c == '\r' || c == '\x0b' || c == '\x0c'

/-- Models the regex fragment matching the group `(?P<charset>.*)$` in
Python `re` (no DOTALL): the remainder must contain no newline except
possibly a single trailing one, which is not captured. -/
def dotStarTail (l : List Char) : Option (List Char) :=
  if l.contains '\n' then
    if l.getLast? == some '\n' && !(l.dropLast.contains '\n') then
      some l.dropLast
    else none
  else some l

/-- Strips an expected literal prefix from a character list. -/
def stripLit : List Char → List Char → Option (List Char)
  | [], l => some l
  | _ :: _, [] => none
  | p :: ps, c :: cs => if p == c then stripLit ps cs else none

/-- Embeds `CONTENT_RE.match` for
`CONTENT_RE = ^(?P<mime>[\w\/]+);\s?charset=(?P<charset>.*)$`
(`src/ccloaders/news.py:42`): a non-empty run of word/slash characters,
a semicolon, at most one whitespace character, the literal text
`charset=`, and the charset as the remainder. -/
def contentMatch (s : String) : Option (String × String) :=
  let l := s.data
  let mime := l.takeWhile isMimeChar
  if mime.isEmpty then none
  else
    match l.drop mime.length with
    | ';' :: rest =>
      let rest' := match rest with
        | c :: cs => if isPySpace c then cs else rest
        | [] => rest
      match stripLit ("charset=".data) rest' with
      | none => none
      | some tail =>
        match dotStarTail tail with
        | none => none
        | some cs => some (⟨mime⟩, ⟨cs⟩)
    | _ => none

/-- One unit yielded by the WARC container parser, restricted to the
fields the loaders read, together with the record-determined outcomes of
the three external operations performed on it (see the file header). -/
structure RawRecord where
  rec_type : String
  rec_headers : List (String × String)
  http_headers : List (String × String)
  decodeResult : Option String
  langResult : Option String
  parseOk : Bool
deriving DecidableEq, Repr

/-- Embeds `CCNewsArticleLoader.__is_valid_record`
(`src/ccloaders/news.py:266`): response type, both headers present,
Content-Type matching `CONTENT_RE` with mime `text/html` and charset
case-insensitively `utf-8`, and the target URI matching at least one URL
pattern. -/
def is_valid_record (patterns : List String) (record : RawRecord) : Bool :=
  if record.rec_type != "response" then false
  else
    match get_header record.rec_headers ("WARC-Target-URI"),
          get_header record.http_headers ("Content-Type") with
    | some source_url, some content_string =>
      (match contentMatch content_string with
       | none => false
       | some (mime, charset) =>
         if mime != "text/html" || lowerStr charset != "utf-8" then false
         else patterns.any fun url => fnmatch source_url url)
    | _, _ => false

/-- The run counters owned by a loader instance
(`extracted` / `discarded` / `errored`). -/
structure Counters where
  extracted : Nat
  discarded : Nat
  errored : Nat
deriving DecidableEq, Repr

/-- Embeds `CCNewsArticleLoader.reset_counts` (`src/ccloaders/news.py:160`),
which is invoked only from `__init__`. -/
def reset_counts : Counters := ⟨0, 0, 0⟩

/-- Componentwise addition of counters. -/
def addC (a b : Counters) : Counters :=
  ⟨a.extracted + b.extracted, a.discarded + b.discarded, a.errored + b.errored⟩

/-- Sum of the three counters. -/
def sumC (c : Counters) : Nat := c.extracted + c.discarded + c.errored

/-- Embeds `CCNewsArticleLoader.extract_article`
(`src/ccloaders/news.py:299`): an unsupported language is discarded before
extraction; otherwise extraction is attempted, incrementing `extracted` on
success and `errored` on failure, and the callback runs exactly when
`article.is_parsed` holds, i.e. when `download` + `parse` succeeded.
`out` is the sequence of `article_callback` invocations so far (recorded
by source URL). -/
def extract_article (supported : List String) (c : Counters) (out : List String)
    (url : String) (_html : String) (language : String) (parseOk : Bool) :
    Counters × List String :=
  if !(supported.contains language) then
    ({ c with discarded := c.discarded + 1 }, out)
  else if parseOk then
    ({ c with extracted := c.extracted + 1 }, out ++ [url])
  else
    ({ c with errored := c.errored + 1 }, out)

/-- Outcome of processing records of one segment: `ok` when the loop
finished, `err` when an uncaught `LangDetectException` escaped
(`src/ccloaders/news.py:351` catches only `UnicodeDecodeError`).  Both
carry the counters and callback sequence at that point. -/
inductive ParseOutcome where
  | ok (st : Counters × List String)
  | err (st : Counters × List String)
deriving DecidableEq, Repr

/-- The state carried by either outcome. -/
def ParseOutcome.state : ParseOutcome → Counters × List String
  | .ok st => st
  | .err st => st

/-- The target URI passed to `extract_article`; only read on records that
passed `__is_valid_record`, which guarantees the header is present. -/
def urlOf (r : RawRecord) : String :=
  (get_header r.rec_headers ("WARC-Target-URI")).getD ""

/-- Embeds one iteration of the loop in
`CCNewsArticleLoader.__parse_records` (`src/ccloaders/news.py:343`):
an invalid record increments `discarded`; a payload that fails UTF-8
decoding increments `errored` (the `UnicodeDecodeError` is caught); a
language-detection failure raises `LangDetectException`, which no handler
catches, so the loop — and with it the whole run — aborts. -/
def parse_record (patterns supported : List String) (c : Counters)
    (out : List String) (r : RawRecord) : ParseOutcome :=
  if !is_valid_record patterns r then
    .ok ({ c with discarded := c.discarded + 1 }, out)
  else
    match r.decodeResult with
    | none => .ok ({ c with errored := c.errored + 1 }, out)
    | some html =>
      match r.langResult with
      | none => .err (c, out)
      | some language =>
        .ok (extract_article supported c out (urlOf r) html language r.parseOk)

/-- Embeds the record loop of `CCNewsArticleLoader.__parse_records`
(`src/ccloaders/news.py:332`) over the records of one segment. -/
def parse_records (patterns supported : List String) :
    List RawRecord → Counters → List String → ParseOutcome
  | [], c, out => .ok (c, out)
  | r :: rs, c, out =>
    match parse_record patterns supported c out r with
    | .ok (c', out') => parse_records patterns supported rs c' out'
    | .err st => .err st

/-- Attempts `WARC_FILE_RE` at one position: the literal `CC-NEWS-`, then
exactly 14 digits, a hyphen and 5 digits; returns the 14-digit timestamp
field. -/
def warcMatchAt (l : List Char) : Option (List Char) :=
  match stripLit ("CC-NEWS-".data) l with
  | none => none
  | some rest =>
    let t := rest.take 14
    if t.length = 14 && t.all Char.isDigit then
      match rest.drop 14 with
      | '-' :: rest2 =>
        if (rest2.take 5).length = 5 && (rest2.take 5).all Char.isDigit then
          some t
        else none
      | _ => none
    else none

/-- Embeds `WARC_FILE_RE.search` for
`WARC_FILE_RE = CC-NEWS-(?P<time>\d{14})-(?P<serial>\d{5})`
(`src/ccloaders/news.py:41`): the `time` group at the leftmost matching
position, `none` if no position matches. -/
def warcSearch : List Char → Option (List Char)
  | [] => none
  | c :: rest =>
    match warcMatchAt (c :: rest) with
    | some t => some t
    | none => warcSearch rest

/-- Numeric value of a list of ASCII digits. -/
def digitsToNat (l : List Char) : Nat :=
  l.foldl (fun a c => a * 10 + (c.toNat - 48)) 0

/-- Embeds `datetime.strptime(time, "%Y%m%d%H%M%S")` on a 14-digit string
(`src/ccloaders/news.py:226`): fixed-width fields, validated exactly as
Python does (month 1–12, day 1–last day of that month, hour ≤ 23,
minute/second ≤ 59, year ≥ 1); an out-of-range field raises `ValueError`,
modelled as `none`. -/
def strptime14 (t : List Char) : Option DateTime :=
  let y := digitsToNat (t.take 4)
  let mo := digitsToNat ((t.drop 4).take 2)
  let d := digitsToNat ((t.drop 6).take 2)
  let h := digitsToNat ((t.drop 8).take 2)
  let mi := digitsToNat ((t.drop 10).take 2)
  let s := digitsToNat ((t.drop 12).take 2)
  if 1 ≤ y && 1 ≤ mo && mo ≤ 12 && 1 ≤ d && d ≤ daysInMonth y mo
      && h ≤ 23 && mi ≤ 59 && s ≤ 59 then
    some ⟨y, mo, d, h, mi, s⟩
  else none

/-- Embeds `CCNewsArticleLoader.__is_within_date`
(`src/ccloaders/news.py:199`): a path with no `WARC_FILE_RE` match is
`False`; otherwise the timestamp is parsed with `strptime` (whose
`ValueError` on an out-of-range field propagates, modelled as
`Except.error`) and compared against the window as
`start_date ≤ crawl < end_date`. -/
def is_within_date (start_date end_date : DateTime) (warc_filepath : String) :
    Except String Bool :=
  match warcSearch warc_filepath.data with
  | none => .ok false
  | some t =>
    match strptime14 t with
    | none => .error ("ValueError")
    | some crawl => .ok (dtLe start_date crawl && dtLt crawl end_date)

/-- Embeds `CCNewsArticleLoader.__filter_warc_paths`
(`src/ccloaders/news.py:231`): `list(filter(self.__is_within_date, ...))`,
evaluated left to right, with any `ValueError` from `strptime`
propagating. -/
def filter_warc_paths (start_date end_date : DateTime) :
    List String → Except String (List String)
  | [] => .ok []
  | p :: ps =>
    match is_within_date start_date end_date p with
    | .error e => .error e
    | .ok b =>
      match filter_warc_paths start_date end_date ps with
      | .error e => .error e
      | .ok rest => .ok (if b then p :: rest else rest)

/-- The remote archive as seen through the HTTP transport: `listing y m`
is the decompressed, line-split body of the monthly `warc.paths.gz`
listing (`none` models a non-success status), and `segment p` is the
record sequence the WARC parser yields for segment path `p` (`none`
models a non-success status). -/
structure Archive where
  listing : Nat → Nat → Option (List String)
  segment : String → Option (List RawRecord)

/-- Embeds `CCNewsArticleLoader.__load_warc_paths`
(`src/ccloaders/news.py:166`): a failed listing fetch contributes an
empty list. -/
def load_warc_paths (arch : Archive) (month year : Nat) : List String :=
  (arch.listing year month).getD []

/-- The `(year, month)` pairs for which `__retrieve_warc_paths`
(`src/ccloaders/news.py:260`) performs a listing fetch: one per
occurrence of `rrule(MONTHLY, start_date, until=end_date)`. -/
def listing_months (start_date end_date : DateTime) : List (Nat × Nat) :=
  (rruleMonthly start_date end_date).map fun d => (d.year, d.month)

/-- The concatenation, in month order, of all monthly listings fetched by
`__retrieve_warc_paths` before filtering. -/
def all_filenames (arch : Archive) (start_date end_date : DateTime) : List String :=
  (rruleMonthly start_date end_date).foldl
    (fun acc d => acc ++ load_warc_paths arch d.month d.year) []

/-- Embeds the segment loop of `CCNewsArticleLoader.download_articles`
(`src/ccloaders/news.py:403`) together with `__load_warc`
(`src/ccloaders/news.py:361`): each path is fetched in listing order
(recorded in `segs`); a failed fetch is skipped; a fetched segment is
parsed, and an uncaught `LangDetectException` aborts the remaining loop
with the counters and callback sequence at that point. -/
def load_warcs (arch : Archive) (patterns supported : List String) :
    List String → Counters → List String → List String →
    Option String × Counters × List String × List String
  | [], c, out, segs => (none, c, out, segs)
  | p :: ps, c, out, segs =>
    match arch.segment p with
    | none => load_warcs arch patterns supported ps c out (segs ++ [p])
    | some rs =>
      match parse_records patterns supported rs c out with
      | .ok (c', out') => load_warcs arch patterns supported ps c' out' (segs ++ [p])
      | .err (c', out') => (some ("LangDetectException"), c', out', segs ++ [p])

/-- Observable result of one `download_articles` call: the exception that
escaped it, if any (`ValueError` from a setter or from `strptime`;
`LangDetectException` from `langdetect`), the loader's counters when the
call returned or raised, the sequence of `article_callback` invocations
it made, and the listing/segment fetches it performed. -/
structure RunResult where
  error : Option String
  counters : Counters
  sinkOut : List String
  listingFetches : List (Nat × Nat)
  segmentFetches : List String
deriving DecidableEq, Repr

/-- Embeds `CCNewsArticleLoader.download_articles`
(`src/ccloaders/news.py:382`).  `c0` is the loader's counters on entry —
`reset_counts` is called only by `__init__`, never here.  The setters run
first: `end_date` (raising `ValueError` unless `end_date < now`), then
`start_date` (raising unless `start_date < end_date`); a raise happens
before any fetch.  Then every month listing is fetched, the filenames are
filtered (a `ValueError` from `strptime` escapes after the listing
fetches but before any segment fetch), and each surviving segment is
fetched and parsed.  The `patterns` argument is typed `List String`, so
the two type checks of the `patterns` setter hold by construction. -/
def download_articles (arch : Archive) (supported : List String) (c0 : Counters)
    (patterns : List String) (start_date end_date now : DateTime) : RunResult :=
  if !dtLt end_date now then
    ⟨some ("ValueError"), c0, [], [], []⟩
  else if !dtLt start_date end_date then
    ⟨some ("ValueError"), c0, [], [], []⟩
  else
    match filter_warc_paths start_date end_date (all_filenames arch start_date end_date) with
    | .error e => ⟨some e, c0, [], listing_months start_date end_date, []⟩
    | .ok warc_paths =>
      ⟨(load_warcs arch patterns supported warc_paths c0 [] []).1,
       (load_warcs arch patterns supported warc_paths c0 [] []).2.1,
       (load_warcs arch patterns supported warc_paths c0 [] []).2.2.1,
       listing_months start_date end_date,
       (load_warcs arch patterns supported warc_paths c0 [] []).2.2.2⟩

/-- Embeds `CCMainArticleLoader.__is_valid_record`
(`src/ccloaders/main.py:234`): identical to the CC-NEWS predicate except
that no URL-pattern test is applied (`return True`). -/
def main_is_valid_record (record : RawRecord) : Bool :=
  if record.rec_type != "response" then false
  else
    match get_header record.rec_headers ("WARC-Target-URI"),
          get_header record.http_headers ("Content-Type") with
    | some _, some content_string =>
      (match contentMatch content_string with
       | none => false
       | some (mime, charset) =>
         if mime != "text/html" || lowerStr charset != "utf-8" then false
         else true)
    | _, _ => false

/-- Embeds the record handling of `CCMainArticleLoader.__parse_records`
(`src/ccloaders/main.py:320`, the part from the validity check onward; the
preceding `WARC-Date` extraction only forwards a timestamp to the
callback and is not modelled): the `try` block catches `Exception`, so
both a UTF-8 decode failure and a `langdetect` failure increment
`errored` and return.  `CCMainArticleLoader.extract_article` is
line-for-line the counter logic of `extract_article` above (it only
additionally passes `date_crawled` to the callback), so it is reused. -/
def main_parse_record (supported : List String) (c : Counters)
    (out : List String) (r : RawRecord) : Counters × List String :=
  if !main_is_valid_record r then
    ({ c with discarded := c.discarded + 1 }, out)
  else
    match r.decodeResult with
    | none => ({ c with errored := c.errored + 1 }, out)
    | some html =>
      match r.langResult with
      | none => ({ c with errored := c.errored + 1 }, out)
      | some language =>
        extract_article supported c out (urlOf r) html language r.parseOk

/-- All records yielded by the fetched segments of a run, in processing
order (a failed segment fetch yields none). -/
def run_records (arch : Archive) : List String → List RawRecord
  | [] => []
  | p :: ps => (arch.segment p).getD [] ++ run_records arch ps

/-- Number of records yielded by the fetched segments of a run. -/
def totalRecords (arch : Archive) (paths : List String) : Nat :=
  (run_records arch paths).length

/-- Modelled from the spec: the right-hand side of claim C2, the number
of records for which the record filter evaluated eligible. -/
def claimEligibleCount (patterns : List String) (arch : Archive)
    (paths : List String) : Nat :=
  ((run_records arch paths).filter fun r => is_valid_record patterns r).length

/-- Modelled from the spec: the right-hand side of claim C2, the number
of eligible records whose detected language was unsupported. -/
def claimUnsupportedCount (patterns supported : List String) (arch : Archive)
    (paths : List String) : Nat :=
  ((run_records arch paths).filter fun r =>
    is_valid_record patterns r &&
      (match r.decodeResult with
       | none => false
       | some _ =>
         match r.langResult with
         | none => false
         | some language => !(supported.contains language))).length

/-- Modelled from the spec: the per-path keep predicate of claim C9 — the
path matches the CC-NEWS filename shape and its embedded timestamp `ts`
satisfies `start_date ≤ ts < end_date`. -/
def within_pure (start_date end_date : DateTime) (p : String) : Bool :=
  match warcSearch p.data with
  | none => false
  | some t =>
    match strptime14 t with
    | none => false
    | some ts => dtLe start_date ts && dtLt ts end_date

/-! Concrete fixtures used by counterexamples and witnesses. -/

/-- 2022-01-01 00:00:00, a concrete window start. -/
def dtJan : DateTime := ⟨2022, 1, 1, 0, 0, 0⟩

/-- 2022-02-01 00:00:00, a concrete window end. -/
def dtFeb : DateTime := ⟨2022, 2, 1, 0, 0, 0⟩

/-- 2023-01-01 00:00:00, the process-observed now for the fixtures. -/
def dtNow : DateTime := ⟨2023, 1, 1, 0, 0, 0⟩

/-- A CC-NEWS segment path whose timestamp 2022-01-15 00:05:46 lies inside
the window `[dtJan, dtFeb)`. -/
def pathJan : String := "crawl-data/CC-NEWS/2022/01/CC-NEWS-20220115000546-00192.warc.gz"

/-- An eligible English record that decodes, language-detects and parses
successfully. -/
def recGood : RawRecord :=
  { rec_type := "response",
    rec_headers := [(("WARC-Target-URI"), ("https://x.com/news/a"))],
    http_headers := [(("Content-Type"), ("text/html; charset=UTF-8"))],
    decodeResult := some ("<html>x</html>"),
    langResult := some ("en"),
    parseOk := true }

/-- An ineligible record (its record kind is `request`, not `response`). -/
def recBad : RawRecord := { recGood with rec_type := "request" }

/-- An eligible record whose declared charset is ISO-8859-1. -/
def recISO : RawRecord :=
  { recGood with
    http_headers := [(("Content-Type"), ("text/html; charset=ISO-8859-1"))] }

/-- An eligible record whose payload decodes but on whose text language
detection fails (`langdetect.detect` raises `LangDetectException`). -/
def recLangFail : RawRecord := { recGood with langResult := none }

/-- An eligible record whose payload is not valid UTF-8
(`bytes.decode` raises `UnicodeDecodeError`). -/
def recDecodeFail : RawRecord := { recGood with decodeResult := none, langResult := none }

/-- An archive fixture: January 2022 lists exactly `pathJan`, other months
list nothing, and `pathJan` holds the given records. -/
def archWith (rs : List RawRecord) : Archive :=
  { listing := fun y m => if y == 2022 && m == 1 then some [pathJan] else some [],
    segment := fun p => if p == pathJan then some rs else none }

/-- Archive with one successfully extracted record. -/
def archGood : Archive := archWith [recGood]

/-- Archive with one filter-rejected record. -/
def archBad : Archive := archWith [recBad]

/-- Archive with one record on which language detection fails. -/
def archLang : Archive := archWith [recLangFail]

/-- An eligible-but-for-the-charset record whose Content-Type declares no
charset at all. -/
def recNoCharset : RawRecord :=
  { recGood with http_headers := [(("Content-Type"), ("text/html"))] }

/-- Candidate listing used by the C9 witness: one in-window CC-NEWS path,
one path that does not match the filename shape, and one CC-NEWS path
dated outside the window. -/
def pathsW : List String :=
  [pathJan,
   ("commoncrawl-index.txt"),
   ("crawl-data/CC-NEWS/2022/03/CC-NEWS-20220301000000-00001.warc.gz")]

/-- Shifts a `ParseOutcome`'s counters by `d` and prefixes its callback
sequence with `pre`; used to state that the effect of the record loop is
the same whatever state it starts from. -/
def shiftPO (d : Counters) (pre : List String) : ParseOutcome → ParseOutcome
  | .ok st => .ok (addC d st.1, pre ++ st.2)
  | .err st => .err (addC d st.1, pre ++ st.2)

/-- First run against `archGood` on a freshly constructed loader. -/
def runA : RunResult :=
  download_articles archGood [("en")] reset_counts [("*")] dtJan dtFeb dtNow

/-- Second run with identical arguments on the same loader instance: its
counters start from the values `runA` left behind, because
`download_articles` never calls `reset_counts`. -/
def runB : RunResult :=
  download_articles archGood [("en")] runA.counters [("*")] dtJan dtFeb dtNow

end CC

namespace CC

/-- Adding the zero counters left by `reset_counts` is the identity. -/
theorem addC_reset (c : Counters) : addC c reset_counts = c := by
  obtain ⟨a, b, d⟩ := c
  simp [addC, reset_counts]

/-- The effect of `extract_article` is independent of the counters and
callback sequence it starts from. -/
theorem extract_article_shift (supported : List String) (d c : Counters)
    (pre out : List String) (url html language : String) (ok : Bool) :
    extract_article supported (addC d c) (pre ++ out) url html language ok =
      (addC d (extract_article supported c out url html language ok).1,
       pre ++ (extract_article supported c out url html language ok).2) := by
  obtain ⟨de, dd, dr⟩ := d
  obtain ⟨ce, cd, cr⟩ := c
  unfold extract_article
  cases h : supported.contains language <;> cases ok <;>
    simp [h, addC, Nat.add_assoc]

/-- The effect of one record iteration is independent of the state it
starts from. -/
theorem parse_record_shift (patterns supported : List String) (d c : Counters)
    (pre out : List String) (r : RawRecord) :
    parse_record patterns supported (addC d c) (pre ++ out) r =
      shiftPO d pre (parse_record patterns supported c out r) := by
  unfold parse_record
  cases h : is_valid_record patterns r
  · obtain ⟨de, dd, dr⟩ := d
    obtain ⟨ce, cd, cr⟩ := c
    simp [h, shiftPO, addC, Nat.add_assoc]
  · cases hd : r.decodeResult with
    | none =>
      obtain ⟨de, dd, dr⟩ := d
      obtain ⟨ce, cd, cr⟩ := c
      simp [h, hd, shiftPO, addC, Nat.add_assoc]
    | some html =>
      cases hl : r.langResult with
      | none => simp [h, hd, hl, shiftPO]
      | some language =>
        simp [h, hd, hl, shiftPO, extract_article_shift]

/-- The effect of the record loop is independent of the state it starts
from. -/
theorem parse_records_shift (patterns supported : List String)
    (rs : List RawRecord) :
    ∀ (d c : Counters) (pre out : List String),
    parse_records patterns supported rs (addC d c) (pre ++ out) =
      shiftPO d pre (parse_records patterns supported rs c out) := by
  induction rs with
  | nil => intro d c pre out; simp [parse_records, shiftPO]
  | cons r rs ih =>
    intro d c pre out
    simp only [parse_records]
    rw [parse_record_shift]
    cases hpr : parse_record patterns supported c out r with
    | ok st =>
      obtain ⟨c1, o1⟩ := st
      simpa [shiftPO] using ih d c1 pre o1
    | err st =>
      obtain ⟨c1, o1⟩ := st
      simp [shiftPO]

/-- The effect of the segment loop is independent of the state it starts
from. -/
theorem load_warcs_shift (arch : Archive) (patterns supported : List String)
    (paths : List String) :
    ∀ (d c : Counters) (pre out segs : List String),
    load_warcs arch patterns supported paths (addC d c) (pre ++ out) segs =
      ((load_warcs arch patterns supported paths c out segs).1,
       addC d (load_warcs arch patterns supported paths c out segs).2.1,
       pre ++ (load_warcs arch patterns supported paths c out segs).2.2.1,
       (load_warcs arch patterns supported paths c out segs).2.2.2) := by
  induction paths with
  | nil => intro d c pre out segs; simp [load_warcs]
  | cons p ps ih =>
    intro d c pre out segs
    cases hseg : arch.segment p with
    | none => simp [load_warcs, hseg, ih]
    | some rs =>
      simp only [load_warcs, hseg]
      rw [parse_records_shift]
      cases hpr : parse_records patterns supported rs c out with
      | ok st =>
        obtain ⟨c1, o1⟩ := st
        simpa [shiftPO] using ih d c1 pre o1 (segs ++ [p])
      | err st =>
        obtain ⟨c1, o1⟩ := st
        simp [shiftPO]

/-- A `download_articles` call starting from counters `c0` behaves exactly
like the same call starting from freshly reset counters, except that the
final counters are shifted by `c0`: the run's error, callback sequence and
fetch traces do not depend on the counters it starts from, and its counter
increments are simply added on top of `c0`. -/
theorem download_shift (arch : Archive) (supported : List String) (c0 : Counters)
    (patterns : List String) (start_date end_date now : DateTime) :
    download_articles arch supported c0 patterns start_date end_date now =
      { download_articles arch supported reset_counts patterns start_date end_date now with
        counters := addC c0
          (download_articles arch supported reset_counts patterns start_date end_date now).counters } := by
  unfold download_articles
  cases h1 : dtLt end_date now
  · simp [addC_reset]
  · cases h2 : dtLt start_date end_date
    · simp [addC_reset]
    · simp only [Bool.not_true, Bool.false_eq_true, if_false]
      cases hf : filter_warc_paths start_date end_date (all_filenames arch start_date end_date) with
      | error e => simp [addC_reset]
      | ok warc_paths =>
        have hl := load_warcs_shift arch patterns supported warc_paths c0 reset_counts [] [] []
        simp only [addC_reset, List.nil_append] at hl
        simp [hl]

/-- Every completed `extract_article` call increments exactly one of the
three counters. -/
theorem extract_article_sum (supported : List String) (c : Counters)
    (out : List String) (url html language : String) (ok : Bool) :
    sumC (extract_article supported c out url html language ok).1 = sumC c + 1 := by
  unfold extract_article sumC
  cases h : supported.contains language <;> cases ok <;> simp [h] <;> omega

/-- Every completed record iteration increments exactly one of the three
counters. -/
theorem parse_record_sum (patterns supported : List String) (c : Counters)
    (out : List String) (r : RawRecord) (st : Counters × List String)
    (h : parse_record patterns supported c out r = .ok st) :
    sumC st.1 = sumC c + 1 := by
  unfold parse_record at h
  cases hv : is_valid_record patterns r
  · simp only [hv] at h
    injection h with h
    subst h
    simp [sumC]
    omega
  · simp only [hv] at h
    cases hd : r.decodeResult with
    | none =>
      simp only [hd] at h
      injection h with h
      subst h
      simp [sumC]
      omega
    | some html =>
      cases hl : r.langResult with
      | none => simp [hd, hl] at h
      | some language =>
        simp only [hd, hl] at h
        injection h with h
        subst h
        exact extract_article_sum supported c out (urlOf r) html language r.parseOk

/-- A record loop that completes without an uncaught exception increments
the counters by exactly the number of records it saw. -/
theorem parse_records_sum (patterns supported : List String)
    (rs : List RawRecord) :
    ∀ (c : Counters) (out : List String) (st : Counters × List String),
    parse_records patterns supported rs c out = .ok st →
    sumC st.1 = sumC c + rs.length := by
  induction rs with
  | nil =>
    intro c out st h
    simp only [parse_records] at h
    injection h with h
    subst h
    simp
  | cons r rs ih =>
    intro c out st h
    simp only [parse_records] at h
    cases hpr : parse_record patterns supported c out r with
    | ok st1 =>
      obtain ⟨c1, o1⟩ := st1
      rw [hpr] at h
      have h2 : sumC st.1 = sumC c1 + rs.length := ih c1 o1 st h
      have h1 : sumC c1 = sumC c + 1 :=
        parse_record_sum patterns supported c out r (c1, o1) hpr
      simp only [List.length_cons]
      omega
    | err st1 => rw [hpr] at h; simp at h

/-- One step of the total-record count over segment paths. -/
theorem totalRecords_cons (arch : Archive) (p : String) (ps : List String) :
    totalRecords arch (p :: ps) =
      ((arch.segment p).getD []).length + totalRecords arch ps := by
  simp [totalRecords, run_records]

/-- A segment loop that returns without an uncaught exception increments
the counters by exactly the number of records of the fetched segments and
records a fetch for every path. -/
theorem load_warcs_done (arch : Archive) (patterns supported : List String)
    (paths : List String) :
    ∀ (c : Counters) (out segs : List String),
    (load_warcs arch patterns supported paths c out segs).1 = none →
    sumC (load_warcs arch patterns supported paths c out segs).2.1 =
        sumC c + totalRecords arch paths ∧
      (load_warcs arch patterns supported paths c out segs).2.2.2 = segs ++ paths := by
  induction paths with
  | nil =>
    intro c out segs _
    simp [load_warcs, totalRecords, run_records]
  | cons p ps ih =>
    intro c out segs h
    cases hseg : arch.segment p with
    | none =>
      simp only [load_warcs, hseg] at h ⊢
      have := ih c out (segs ++ [p]) h
      simp only [totalRecords_cons, hseg]
      simpa using this
    | some rs =>
      simp only [load_warcs, hseg] at h ⊢
      cases hpr : parse_records patterns supported rs c out with
      | ok st1 =>
        obtain ⟨c1, o1⟩ := st1
        rw [hpr] at h
        have h' : (load_warcs arch patterns supported ps c1 o1 (segs ++ [p])).1 = none := h
        have h2 := ih c1 o1 (segs ++ [p]) h'
        have h1 : sumC c1 = sumC c + rs.length :=
          parse_records_sum patterns supported rs c out (c1, o1) hpr
        refine ⟨?_, ?_⟩
        · show sumC (load_warcs arch patterns supported ps c1 o1 (segs ++ [p])).2.1 =
            sumC c + totalRecords arch (p :: ps)
          rw [totalRecords_cons, hseg]
          simp only [Option.getD_some]
          omega
        · show (load_warcs arch patterns supported ps c1 o1 (segs ++ [p])).2.2.2 =
            segs ++ p :: ps
          rw [h2.2]
          simp
      | err st1 =>
        obtain ⟨c1, o1⟩ := st1
        rw [hpr] at h
        simp at h

/-- The callback sequence grows only by `extract_article` successes: the
`extracted` counter advances in lockstep with the callback sequence. -/
theorem extract_article_sink (supported : List String) (c : Counters)
    (out : List String) (url html language : String) (ok : Bool) :
    ∃ δ, (extract_article supported c out url html language ok).2 = out ++ δ ∧
      (extract_article supported c out url html language ok).1.extracted =
        c.extracted + δ.length := by
  unfold extract_article
  cases h : supported.contains language <;> cases ok <;> simp [h]

/-- One record iteration appends to the callback sequence exactly as many
entries as it adds to the `extracted` counter (whether or not it raised). -/
theorem parse_record_sink (patterns supported : List String) (c : Counters)
    (out : List String) (r : RawRecord) :
    ∃ δ, (parse_record patterns supported c out r).state.2 = out ++ δ ∧
      (parse_record patterns supported c out r).state.1.extracted =
        c.extracted + δ.length := by
  unfold parse_record
  cases hv : is_valid_record patterns r
  · simp [ParseOutcome.state]
  · cases hd : r.decodeResult with
    | none => simp [ParseOutcome.state]
    | some html =>
      cases hl : r.langResult with
      | none => simp [ParseOutcome.state]
      | some language =>
        simpa [ParseOutcome.state] using
          extract_article_sink supported c out (urlOf r) html language r.parseOk

/-- The record loop appends to the callback sequence exactly as many
entries as it adds to the `extracted` counter. -/
theorem parse_records_sink (patterns supported : List String)
    (rs : List RawRecord) :
    ∀ (c : Counters) (out : List String),
    ∃ δ, (parse_records patterns supported rs c out).state.2 = out ++ δ ∧
      (parse_records patterns supported rs c out).state.1.extracted =
        c.extracted + δ.length := by
  induction rs with
  | nil => intro c out; simp [parse_records, ParseOutcome.state]
  | cons r rs ih =>
    intro c out
    simp only [parse_records]
    cases hpr : parse_record patterns supported c out r with
    | ok st1 =>
      obtain ⟨c1, o1⟩ := st1
      obtain ⟨δ1, hδ1, he1⟩ := parse_record_sink patterns supported c out r
      rw [hpr] at hδ1 he1
      simp only [ParseOutcome.state] at hδ1 he1
      subst hδ1
      obtain ⟨δ2, hδ2, he2⟩ := ih c1 (out ++ δ1)
      refine ⟨δ1 ++ δ2, ?_, ?_⟩
      · show (parse_records patterns supported rs c1 (out ++ δ1)).state.2 =
          out ++ (δ1 ++ δ2)
        rw [hδ2]
        simp
      · show (parse_records patterns supported rs c1 (out ++ δ1)).state.1.extracted =
          c.extracted + (δ1 ++ δ2).length
        rw [he2, he1]
        simp only [List.length_append]
        omega
    | err st1 =>
      obtain ⟨c1, o1⟩ := st1
      obtain ⟨δ1, hδ1, he1⟩ := parse_record_sink patterns supported c out r
      rw [hpr] at hδ1 he1
      simpa [ParseOutcome.state] using ⟨δ1, hδ1, he1⟩

/-- The segment loop appends to the callback sequence exactly as many
entries as it adds to the `extracted` counter. -/
theorem load_warcs_sink (arch : Archive) (patterns supported : List String)
    (paths : List String) :
    ∀ (c : Counters) (out segs : List String),
    ∃ δ, (load_warcs arch patterns supported paths c out segs).2.2.1 = out ++ δ ∧
      (load_warcs arch patterns supported paths c out segs).2.1.extracted =
        c.extracted + δ.length := by
  induction paths with
  | nil => intro c out segs; simp [load_warcs]
  | cons p ps ih =>
    intro c out segs
    cases hseg : arch.segment p with
    | none => simp only [load_warcs, hseg]; exact ih c out (segs ++ [p])
    | some rs =>
      simp only [load_warcs, hseg]
      cases hpr : parse_records patterns supported rs c out with
      | ok st1 =>
        obtain ⟨c1, o1⟩ := st1
        obtain ⟨δ1, hδ1, he1⟩ := parse_records_sink patterns supported rs c out
        rw [hpr] at hδ1 he1
        simp only [ParseOutcome.state] at hδ1 he1
        subst hδ1
        obtain ⟨δ2, hδ2, he2⟩ := ih c1 (out ++ δ1) (segs ++ [p])
        refine ⟨δ1 ++ δ2, ?_, ?_⟩
        · show (load_warcs arch patterns supported ps c1 (out ++ δ1) (segs ++ [p])).2.2.1 =
            out ++ (δ1 ++ δ2)
          rw [hδ2]
          simp
        · show (load_warcs arch patterns supported ps c1 (out ++ δ1) (segs ++ [p])).2.1.extracted =
            c.extracted + (δ1 ++ δ2).length
          rw [he2, he1]
          simp only [List.length_append]
          omega
      | err st1 =>
        obtain ⟨c1, o1⟩ := st1
        obtain ⟨δ1, hδ1, he1⟩ := parse_records_sink patterns supported rs c out
        rw [hpr] at hδ1 he1
        simpa [ParseOutcome.state] using ⟨δ1, hδ1, he1⟩

/-- Whatever happens during a run — completion, a configuration error, or
an abort — the `extracted` counter advances by exactly the number of
callback invocations the run made. -/
theorem download_sink (arch : Archive) (supported : List String) (c0 : Counters)
    (patterns : List String) (start_date end_date now : DateTime) :
    (download_articles arch supported c0 patterns start_date end_date now).counters.extracted =
      c0.extracted +
        (download_articles arch supported c0 patterns start_date end_date now).sinkOut.length := by
  unfold download_articles
  cases h1 : dtLt end_date now
  · simp
  · cases h2 : dtLt start_date end_date
    · simp
    · simp only [Bool.not_true, Bool.false_eq_true, if_false]
      cases hf : filter_warc_paths start_date end_date (all_filenames arch start_date end_date) with
      | error e => simp
      | ok warc_paths =>
        obtain ⟨δ, hδ, he⟩ := load_warcs_sink arch patterns supported warc_paths c0 [] []
        simp [hδ, he]

/-- The empty pattern set makes every record invalid: the URL disjunction
over no patterns is false, and it is the last conjunct checked. -/
theorem is_valid_record_nil (r : RawRecord) : is_valid_record [] r = false := by
  unfold is_valid_record
  split
  · rfl
  · split
    · split
      · rfl
      · split
        · rfl
        · simp
    · rfl

/-- With no URL patterns every record is discarded. -/
theorem parse_record_nil (supported : List String) (c : Counters)
    (out : List String) (r : RawRecord) :
    parse_record [] supported c out r =
      .ok ({ c with discarded := c.discarded + 1 }, out) := by
  unfold parse_record
  simp [is_valid_record_nil]

/-- With no URL patterns the record loop discards every record and never
invokes the callback. -/
theorem parse_records_nil (supported : List String) (rs : List RawRecord) :
    ∀ (c : Counters) (out : List String),
    parse_records [] supported rs c out =
      .ok ({ c with discarded := c.discarded + rs.length }, out) := by
  induction rs with
  | nil => intro c out; simp [parse_records]
  | cons r rs ih =>
    intro c out
    obtain ⟨ce, cd, cr⟩ := c
    simp only [parse_records, parse_record_nil]
    rw [ih]
    simp only [List.length_cons]
    rw [show cd + (rs.length + 1) = cd + 1 + rs.length from by omega]

/-- With no URL patterns the segment loop discards every record of every
fetched segment and never invokes the callback. -/
theorem load_warcs_nil (arch : Archive) (supported : List String)
    (paths : List String) :
    ∀ (c : Counters) (out segs : List String),
    load_warcs arch [] supported paths c out segs =
      (none, { c with discarded := c.discarded + totalRecords arch paths },
       out, segs ++ paths) := by
  induction paths with
  | nil =>
    intro c out segs
    simp [load_warcs, totalRecords, run_records]
  | cons p ps ih =>
    intro c out segs
    obtain ⟨ce, cd, cr⟩ := c
    cases hseg : arch.segment p with
    | none =>
      simp only [load_warcs, hseg]
      rw [ih]
      simp [totalRecords_cons, hseg]
    | some rs =>
      simp only [load_warcs, hseg, parse_records_nil]
      rw [ih]
      rw [totalRecords_cons, hseg]
      simp only [Option.getD_some]
      rw [show cd + (rs.length + totalRecords arch ps) =
        cd + rs.length + totalRecords arch ps from by omega]
      simp

/-- C1 (code_bug): the month iteration of `__retrieve_warc_paths` does not
cover every calendar month overlapping the window.  For the window
2022-03-31 .. 2022-05-15 (spanning months 2022-03 through 2022-05) only
March's listing is fetched: April is skipped because it has no 31st day,
and May's occurrence 2022-05-31 exceeds the `until` bound.  For
2022-03-20 .. 2022-05-10 only March and April are fetched.  Three fetches
happen only when the day-of-month survives, e.g. for
2022-03-01 .. 2022-05-31. -/
theorem C1_month_iteration_misses_months :
    listing_months ⟨2022, 3, 31, 0, 0, 0⟩ ⟨2022, 5, 15, 0, 0, 0⟩ = [(2022, 3)] ∧
    listing_months ⟨2022, 3, 20, 0, 0, 0⟩ ⟨2022, 5, 10, 0, 0, 0⟩ =
      [(2022, 3), (2022, 4)] ∧
    listing_months ⟨2022, 3, 1, 0, 0, 0⟩ ⟨2022, 5, 31, 0, 0, 0⟩ =
      [(2022, 3), (2022, 4), (2022, 5)] := by
  decide

/-- C5 (code_bug): in `CCNewsArticleLoader.__parse_records` a UTF-8 decode
failure increments `errored` and the loop continues, but a
language-detection failure is not handled identically: the `except`
clause catches only `UnicodeDecodeError`, so `LangDetectException`
escapes the record loop (second conjunct) and aborts the whole
`download_articles` run (fourth conjunct).  The `CCMainArticleLoader`
variant, whose `except Exception` is broad, does treat it identically
(third conjunct). -/
theorem C5_langdetect_failure_not_caught :
    parse_record [("*")] [("en")] reset_counts [] recDecodeFail =
      .ok ({ reset_counts with errored := 1 }, []) ∧
    parse_record [("*")] [("en")] reset_counts [] recLangFail =
      .err (reset_counts, []) ∧
    main_parse_record [("en")] reset_counts [] recLangFail =
      ({ reset_counts with errored := 1 }, []) ∧
    (download_articles archLang [("en")] reset_counts [("*")] dtJan dtFeb dtNow).error =
      some ("LangDetectException") := by
  decide

/-- C2 (counterexample): after a run over a segment holding one
filter-rejected record, `extracted + discarded + errored = 1` (the
ineligible record incremented `discarded` at
`src/ccloaders/news.py:348`), while the claim's right-hand side — eligible
records plus eligible records of unsupported language — is `0`. -/
theorem C2_counterexample :
    sumC (download_articles archBad [("en")] reset_counts [("*")] dtJan dtFeb dtNow).counters ≠
      claimEligibleCount [("*")] archBad
          (download_articles archBad [("en")] reset_counts [("*")] dtJan dtFeb dtNow).segmentFetches +
        claimUnsupportedCount [("*")] [("en")] archBad
          (download_articles archBad [("en")] reset_counts [("*")] dtJan dtFeb dtNow).segmentFetches := by
  decide

/-- C3 (counterexample): `download_articles` never resets the counters, so
a second identical run starts from the first run's values: after `runB`
the loader reports `extracted = 2` although that run alone extracted one
article. -/
theorem C3_counterexample :
    runA.counters = ⟨1, 0, 0⟩ ∧ runB.counters = ⟨2, 0, 0⟩ := by
  decide

/-- C4 (counterexample): calling `download_articles` twice with identical
arguments against the unchanged `archGood` leaves different counter
values after each call (1 versus 2 extracted), refuting the claimed
identical counter values; the per-call callback sequences do agree. -/
theorem C4_counterexample :
    runB.sinkOut = runA.sinkOut ∧ runB.counters ≠ runA.counters := by
  decide

/-- C9 (counterexample): a candidate that matches the `WARC_FILE_RE` shape
but whose 14 digits are not a valid calendar timestamp (February 30th)
makes the filtering raise `ValueError` instead of keeping or dropping the
candidate. -/
theorem C9_counterexample :
    filter_warc_paths ⟨2022, 1, 1, 0, 0, 0⟩ ⟨2022, 6, 1, 0, 0, 0⟩
        [("CC-NEWS-20220230120000-00001.warc.gz")] =
      .error ("ValueError") := by
  rfl

/-- C2 (amended): after a `download_articles` run that completes without
an exception, the counters have advanced over their values at entry by
exactly the total number of records yielded by the fetched segments —
every record iterated, eligible or not, increments exactly one of
extracted/discarded/errored (filter-rejected records increment
`discarded`). -/
theorem C2_counters_count_all_records (arch : Archive) (supported : List String)
    (c0 : Counters) (patterns : List String) (start_date end_date now : DateTime)
    (h : (download_articles arch supported c0 patterns start_date end_date now).error = none) :
    sumC (download_articles arch supported c0 patterns start_date end_date now).counters =
      sumC c0 +
        totalRecords arch
          (download_articles arch supported c0 patterns start_date end_date now).segmentFetches := by
  unfold download_articles at h ⊢
  cases h1 : dtLt end_date now
  · rw [h1] at h; simp at h
  · rw [h1] at h
    simp only [Bool.not_true, Bool.false_eq_true, if_false] at h ⊢
    cases h2 : dtLt start_date end_date
    · rw [h2] at h; simp at h
    · rw [h2] at h
      simp only [Bool.not_true, Bool.false_eq_true, if_false] at h ⊢
      cases hf : filter_warc_paths start_date end_date (all_filenames arch start_date end_date) with
      | error e => rw [hf] at h; simp at h
      | ok warc_paths =>
        rw [hf] at h
        have h' : (load_warcs arch patterns supported warc_paths c0 [] []).1 = none := h
        obtain ⟨hsum, hsegs⟩ := load_warcs_done arch patterns supported warc_paths c0 [] [] h'
        show sumC (load_warcs arch patterns supported warc_paths c0 [] []).2.1 =
          sumC c0 +
            totalRecords arch (load_warcs arch patterns supported warc_paths c0 [] []).2.2.2
        rw [hsegs]
        simpa using hsum

/-- C2 witness: a concrete completed run over one segment holding one
record. -/
theorem C2_witness :
    (download_articles archGood [("en")] reset_counts [("*")] dtJan dtFeb dtNow).error =
        none ∧
      sumC (download_articles archGood [("en")] reset_counts [("*")] dtJan dtFeb dtNow).counters =
        sumC reset_counts +
          totalRecords archGood
            (download_articles archGood [("en")] reset_counts [("*")] dtJan dtFeb dtNow).segmentFetches :=
  ⟨by decide,
   C2_counters_count_all_records archGood [("en")] reset_counts [("*")] dtJan dtFeb dtNow
     (by decide)⟩

/-- C3 (amended): the counters are zeroed by `reset_counts` only at
construction; `download_articles` itself never resets them, so a run
starting from counters `c0` produces exactly the run-from-zero behaviour
with its counter increments added on top of `c0` — counters observed
after a run reflect that run alone only when the run started from freshly
reset counters. -/
theorem C3_no_reset_between_runs (arch : Archive) (supported : List String)
    (c0 : Counters) (patterns : List String) (start_date end_date now : DateTime) :
    reset_counts = ⟨0, 0, 0⟩ ∧
      download_articles arch supported c0 patterns start_date end_date now =
        { download_articles arch supported reset_counts patterns start_date end_date now with
          counters := addC c0
            (download_articles arch supported reset_counts patterns start_date end_date now).counters } :=
  ⟨rfl, download_shift arch supported c0 patterns start_date end_date now⟩

/-- C4 (amended): two consecutive `download_articles` calls with identical
arguments against an unchanged archive make identical callback
sequences, raise identically, and perform identical fetches; their
counter increments are equal (both equal to the run-from-zero counters),
but the absolute counter values after the two calls differ by that
increment because the counters accumulate across runs. -/
theorem C4_repeat_run (arch : Archive) (supported : List String) (c0 : Counters)
    (patterns : List String) (start_date end_date now : DateTime) :
    (download_articles arch supported
        (download_articles arch supported c0 patterns start_date end_date now).counters
        patterns start_date end_date now).sinkOut =
      (download_articles arch supported c0 patterns start_date end_date now).sinkOut ∧
    (download_articles arch supported
        (download_articles arch supported c0 patterns start_date end_date now).counters
        patterns start_date end_date now).error =
      (download_articles arch supported c0 patterns start_date end_date now).error ∧
    (download_articles arch supported
        (download_articles arch supported c0 patterns start_date end_date now).counters
        patterns start_date end_date now).listingFetches =
      (download_articles arch supported c0 patterns start_date end_date now).listingFetches ∧
    (download_articles arch supported
        (download_articles arch supported c0 patterns start_date end_date now).counters
        patterns start_date end_date now).segmentFetches =
      (download_articles arch supported c0 patterns start_date end_date now).segmentFetches ∧
    (download_articles arch supported c0 patterns start_date end_date now).counters =
      addC c0
        (download_articles arch supported reset_counts patterns start_date end_date now).counters ∧
    (download_articles arch supported
        (download_articles arch supported c0 patterns start_date end_date now).counters
        patterns start_date end_date now).counters =
      addC (download_articles arch supported c0 patterns start_date end_date now).counters
        (download_articles arch supported reset_counts patterns start_date end_date now).counters := by
  have h1 := download_shift arch supported c0 patterns start_date end_date now
  have h2 := download_shift arch supported
    (download_articles arch supported c0 patterns start_date end_date now).counters
    patterns start_date end_date now
  rw [h2, h1]
  simp

/-- C6: with an inverted or empty window (`start_date ≥ end_date`) or a
non-past end date (`end_date ≥ now`), `download_articles` raises
`ValueError` from the date setters before any fetch: the run performs no
listing fetch and no segment fetch, makes no callback, and leaves the
counters untouched. -/
theorem C6_config_error_before_fetch (arch : Archive) (supported : List String)
    (c0 : Counters) (patterns : List String) (start_date end_date now : DateTime)
    (h : dtLe end_date start_date = true ∨ dtLt end_date now = false) :
    download_articles arch supported c0 patterns start_date end_date now =
      ⟨some ("ValueError"), c0, [], [], []⟩ := by
  unfold download_articles
  cases h1 : dtLt end_date now
  · simp
  · simp only [h1, Bool.not_true, Bool.false_eq_true, if_false]
    rcases h with h | h
    · have h2 : dtLt start_date end_date = false := by
        unfold dtLe at h
        cases h3 : dtLt start_date end_date
        · rfl
        · rw [h3] at h; simp at h
      simp [h2]
    · rw [h] at h1; cases h1

/-- C6 witness: a concrete empty window `start_date = end_date`. -/
theorem C6_witness :
    (dtLe dtFeb dtFeb = true ∨ dtLt dtFeb dtNow = false) ∧
      download_articles archGood [("en")] reset_counts [("*")] dtFeb dtFeb dtNow =
        ⟨some ("ValueError"), reset_counts, [], [], []⟩ :=
  ⟨Or.inl (by decide),
   C6_config_error_before_fetch archGood [("en")] reset_counts [("*")] dtFeb dtFeb dtNow
     (Or.inl (by decide))⟩

/-- C7: the eligibility predicate rejects any record whose Content-Type
does not parse as `<mime>; charset=<charset>` (in particular a bare
`text/html` with no charset declaration), and any parsed record whose
mime is not exactly `text/html` or whose charset is not case-insensitively
`utf-8`; concretely, `text/html; charset=ISO-8859-1` is rejected and
`text/html; charset=UTF-8` with URL pattern `*news*` against
`https://x.com/news/a` is accepted. -/
theorem C7_content_type_gate :
    (∀ (patterns : List String) (r : RawRecord) (ct : String),
        get_header r.http_headers ("Content-Type") = some ct →
        contentMatch ct = none →
        is_valid_record patterns r = false) ∧
    (∀ (patterns : List String) (r : RawRecord) (ct mime charset : String),
        get_header r.http_headers ("Content-Type") = some ct →
        contentMatch ct = some (mime, charset) →
        (mime ≠ "text/html" ∨ lowerStr charset ≠ "utf-8") →
        is_valid_record patterns r = false) ∧
    contentMatch ("text/html") = none ∧
    is_valid_record [("*news*")] recISO = false ∧
    is_valid_record [("*news*")] recGood = true := by
  refine ⟨?_, ?_, by decide, by decide, by decide⟩
  · intro patterns r ct h1 h2
    unfold is_valid_record
    split
    · rfl
    · split
      · rename_i source_url content_string heq
        rw [h1] at heq
        injection heq with heq
        subst heq
        rw [h2]
      · rfl
  · intro patterns r ct mime charset h1 h2 h3
    unfold is_valid_record
    split
    · rfl
    · split
      · rename_i source_url content_string heq
        rw [h1] at heq
        injection heq with heq
        subst heq
        rw [h2]
        have hcond : (mime != "text/html" || lowerStr charset != "utf-8") = true := by
          rcases h3 with h | h <;> simp [h]
        simp [hcond]
      · rfl

/-- C7 witness: the universal parts applied to the record with no charset
declaration and to the ISO-8859-1 record. -/
theorem C7_witness :
    is_valid_record [("*news*")] recNoCharset = false ∧
      is_valid_record [("*")] recISO = false :=
  ⟨C7_content_type_gate.1 [("*news*")] recNoCharset ("text/html") (by decide) (by decide),
   C7_content_type_gate.2.1 [("*")] recISO ("text/html; charset=ISO-8859-1")
     ("text/html") ("ISO-8859-1") (by decide) (by decide) (Or.inr (by decide))⟩

/-- C8: the callback is gated by extraction success — a record of
unsupported language is discarded with no callback, a failed extraction
increments `errored` with no callback, and a successful extraction
increments `extracted` and invokes the callback exactly once; globally,
over any whole run the callback is invoked exactly `extracted`-increment
many times. -/
theorem C8_sink_iff_extracted :
    (∀ (supported : List String) (c : Counters) (out : List String)
        (url html language : String) (ok : Bool),
        supported.contains language = false →
        extract_article supported c out url html language ok =
          ({ c with discarded := c.discarded + 1 }, out)) ∧
    (∀ (supported : List String) (c : Counters) (out : List String)
        (url html language : String),
        supported.contains language = true →
        extract_article supported c out url html language false =
          ({ c with errored := c.errored + 1 }, out)) ∧
    (∀ (supported : List String) (c : Counters) (out : List String)
        (url html language : String),
        supported.contains language = true →
        extract_article supported c out url html language true =
          ({ c with extracted := c.extracted + 1 }, out ++ [url])) ∧
    (∀ (arch : Archive) (supported : List String) (c0 : Counters)
        (patterns : List String) (start_date end_date now : DateTime),
        (download_articles arch supported c0 patterns start_date end_date now).counters.extracted =
          c0.extracted +
            (download_articles arch supported c0 patterns start_date end_date now).sinkOut.length) := by
  refine ⟨?_, ?_, ?_, ?_⟩
  · intro supported c out url html language ok h
    unfold extract_article
    rw [h]
    simp
  · intro supported c out url html language h
    unfold extract_article
    rw [h]
    simp
  · intro supported c out url html language h
    unfold extract_article
    rw [h]
    simp
  · intro arch supported c0 patterns start_date end_date now
    exact download_sink arch supported c0 patterns start_date end_date now

/-- C8 witness: the three gating cases at concrete inputs. -/
theorem C8_witness :
    extract_article [("en")] reset_counts [] ("u") ("h") ("fr") true =
        ({ reset_counts with discarded := 1 }, []) ∧
      extract_article [("en")] reset_counts [] ("u") ("h") ("en") false =
        ({ reset_counts with errored := 1 }, []) ∧
      extract_article [("en")] reset_counts [] ("u") ("h") ("en") true =
        ({ reset_counts with extracted := 1 }, [("u")]) :=
  ⟨C8_sink_iff_extracted.1 [("en")] reset_counts [] ("u") ("h") ("fr") true (by decide),
   C8_sink_iff_extracted.2.1 [("en")] reset_counts [] ("u") ("h") ("en") (by decide),
   C8_sink_iff_extracted.2.2.1 [("en")] reset_counts [] ("u") ("h") ("en") (by decide)⟩

/-- C9 (amended): on a candidate list in which every path that matches the
CC-NEWS filename shape carries a valid calendar timestamp, the filtering
returns (without error) exactly the candidates whose embedded timestamp
`ts` satisfies `start_date ≤ ts < end_date`; candidates not matching the
shape are dropped without error.  (A shape-matching candidate with an
invalid calendar timestamp instead raises `ValueError`, see the
counterexample.) -/
theorem C9_filter_characterization (start_date end_date : DateTime)
    (ps : List String)
    (h : (ps.all fun p => (warcSearch p.data).all fun t => (strptime14 t).isSome) = true) :
    filter_warc_paths start_date end_date ps =
      .ok (ps.filter (within_pure start_date end_date)) := by
  induction ps with
  | nil => simp [filter_warc_paths]
  | cons p ps ih =>
    simp only [List.all_cons, Bool.and_eq_true] at h
    obtain ⟨hp, hps⟩ := h
    simp only [filter_warc_paths, List.filter_cons]
    cases hw : warcSearch p.data with
    | none =>
      simp only [is_within_date, within_pure, hw]
      rw [ih hps]
    | some t =>
      have hsome : (strptime14 t).isSome = true := by
        rw [hw] at hp
        simpa [Option.all] using hp
      obtain ⟨ts, hts⟩ := Option.isSome_iff_exists.mp hsome
      simp only [is_within_date, within_pure, hw, hts]
      rw [ih hps]

/-- C9 witness: a concrete candidate list with an in-window path, a
non-matching path and an out-of-window path; only the in-window path is
kept and no error is raised. -/
theorem C9_witness :
    ((pathsW.all fun p => (warcSearch p.data).all fun t => (strptime14 t).isSome) = true) ∧
      filter_warc_paths dtJan dtFeb pathsW = .ok [pathJan] := by
  refine ⟨by decide, ?_⟩
  rw [C9_filter_characterization dtJan dtFeb pathsW (by decide)]
  rfl

/-- C10: with an empty URL-pattern list the eligibility predicate is false
for every record (the disjunction over no patterns), so a run with
`patterns = []` never invokes the callback and never increments
`extracted`, whatever the archive contains. -/
theorem C10_empty_patterns :
    (∀ r : RawRecord, is_valid_record [] r = false) ∧
    (∀ (arch : Archive) (supported : List String) (c0 : Counters)
        (start_date end_date now : DateTime),
        (download_articles arch supported c0 [] start_date end_date now).sinkOut = [] ∧
        (download_articles arch supported c0 [] start_date end_date now).counters.extracted =
          c0.extracted) := by
  refine ⟨is_valid_record_nil, ?_⟩
  intro arch supported c0 start_date end_date now
  unfold download_articles
  cases h1 : dtLt end_date now
  · simp
  · cases h2 : dtLt start_date end_date
    · simp
    · simp only [Bool.not_true, Bool.false_eq_true, if_false]
      cases hf : filter_warc_paths start_date end_date (all_filenames arch start_date end_date) with
      | error e => simp
      | ok warc_paths =>
        show (load_warcs arch [] supported warc_paths c0 [] []).2.2.1 = [] ∧
          (load_warcs arch [] supported warc_paths c0 [] []).2.1.extracted = c0.extracted
        rw [load_warcs_nil arch supported warc_paths c0 [] []]
        simp

end CC
